import Mathlib

/-!
Verification of the lease-based leader-election engine of this repository
(source file: leaderElection.ts, class LeaderElection).

The embedding models:
  * the two storage backends (MongoDB conditional-write backend and the
    Redis TTL-key backend) as pure functions over an optional lease record,
    with transport faults made explicit through an `Except Int` layer that
    mirrors the try/catch structure of the source;
  * the election engine (node registry, timers, event broadcast and the
    engine commands startElection / stopElection / resetElection /
    crashNode, plus the two timer callbacks: the competition attempt and
    the heartbeat tick) as a state machine on an `Engine` record.

Machine time (Date.now) is an `Int` in epoch milliseconds, passed
explicitly to every operation that reads the clock.
-/

namespace LeaderElection

/-- Lease duration in milliseconds, `LEASE_DURATION` in the source. -/
def LEASE_DURATION : Int := 10000

/-- Heartbeat interval in milliseconds, `HEARTBEAT_INTERVAL` in the source. -/
def HEARTBEAT_INTERVAL : Int := 3000

/-- The single MongoDB leader document (`LeaderDocument` in the source).
The `_id` field is constant (`current-leader`), so it is left implicit:
the collection state is an `Option LeaderDoc`. -/
structure LeaderDoc where
  nodeId : String
  expiresAt : Int
  updatedAt : Int
deriving DecidableEq

/-- The Redis key `leader`: value is the owner node id, `expiresAt` is the
absolute time at which the native TTL expires the key. -/
structure RedisEntry where
  value : String
  expiresAt : Int
deriving DecidableEq

/-- Fault injection for the MongoDB backend calls: when a field is
`some c`, the corresponding driver call throws an error carrying code `c`. -/
structure MongoFaults where
  findErr : Option Int
  insertErr : Option Int
deriving DecidableEq

/-- The fault-free MongoDB environment. -/
def noMongoFaults : MongoFaults := ⟨none, none⟩

/-- Fault injection for the Redis backend calls. -/
structure RedisFaults where
  setErr : Option Int
  getErr : Option Int
  pexpireErr : Option Int
deriving DecidableEq

/-- The fault-free Redis environment. -/
def noRedisFaults : RedisFaults := ⟨none, none, none⟩

/-- Semantics of `insertOne` on the leader collection: a transport fault
throws its code; otherwise inserting while a document with the same fixed
`_id` exists throws the duplicate-key error code 11000, and inserting into
an empty collection stores the document. -/
def insertOne (rec : Option LeaderDoc) (doc : LeaderDoc) (fault : Option Int) :
    Except Int (Option LeaderDoc) :=
  match fault with
  | some c => Except.error c
  | none =>
    match rec with
    | some _ => Except.error 11000
    | none => Except.ok (some doc)

/-- Body of `tryAcquireMongoLeadership` inside its try block: the
`findOneAndUpdate` filtered on an expired (or absent `expiresAt`) record,
followed by the fallback `insertOne` whose duplicate-key error (code
11000) is converted to `false` and whose other errors are rethrown.
Returns the boolean result together with the new collection state. -/
def tryAcquireMongoRaw (rec : Option LeaderDoc) (nodeId : String) (now : Int)
    (f : MongoFaults) : Except Int (Bool × Option LeaderDoc) :=
  match f.findErr with
  | some c => Except.error c
  | none =>
    let doc : LeaderDoc := ⟨nodeId, now + LEASE_DURATION, now⟩
    let matched : Bool :=
      match rec with
      | some r => decide (r.expiresAt < now)
      | none => false
    if matched then
      Except.ok (true, some doc)
    else
      match insertOne rec doc f.insertErr with
      | Except.ok rec2 => Except.ok (true, rec2)
      | Except.error c =>
        if c = 11000 then Except.ok (false, rec) else Except.error c

/-- `tryAcquireMongoLeadership`: returns `false` when the collection handle
is null, otherwise runs the raw operation and collapses any escaped error
to `false` (the outer catch of the source). -/
def tryAcquireMongoLeadership (conn : Bool) (rec : Option LeaderDoc)
    (nodeId : String) (now : Int) (f : MongoFaults) : Bool × Option LeaderDoc :=
  if conn then
    match tryAcquireMongoRaw rec nodeId now f with
    | Except.ok res => res
    | Except.error _ => (false, rec)
  else (false, rec)

/-- Body of `renewMongoLease` inside its try block: `findOneAndUpdate`
filtered on `{_id: current-leader, nodeId}`, updating `expiresAt` and
`updatedAt`; the returned document owner is compared with `nodeId`. -/
def renewMongoRaw (rec : Option LeaderDoc) (nodeId : String) (now : Int)
    (fault : Option Int) : Except Int (Bool × Option LeaderDoc) :=
  match fault with
  | some c => Except.error c
  | none =>
    match rec with
    | some r =>
      if r.nodeId = nodeId then
        Except.ok (true, some { r with expiresAt := now + LEASE_DURATION, updatedAt := now })
      else
        Except.ok (false, some r)
    | none => Except.ok (false, none)

/-- `renewMongoLease`: null collection handle gives `false`; errors of the
raw operation are caught and collapsed to `false`. -/
def renewMongoLease (conn : Bool) (rec : Option LeaderDoc) (nodeId : String)
    (now : Int) (fault : Option Int) : Bool × Option LeaderDoc :=
  if conn then
    match renewMongoRaw rec nodeId now fault with
    | Except.ok res => res
    | Except.error _ => (false, rec)
  else (false, rec)

/-- `releaseMongoLock`: no-op when the collection handle is null; otherwise
`deleteOne` on the fixed id, with any error caught (leaving the record). -/
def releaseMongoLock (conn : Bool) (rec : Option LeaderDoc) (fault : Option Int) :
    Option LeaderDoc :=
  if conn then
    match fault with
    | some _ => rec
    | none => none
  else rec

/-- Redis GET on the `leader` key: a stored entry is visible only until its
native TTL expires. -/
def redisGet (st : Option RedisEntry) (now : Int) : Option String :=
  match st with
  | some e => if now < e.expiresAt then some e.value else none
  | none => none

/-- Redis `SET leader nodeId NX PX:=px`: succeeds (returns OK, i.e. `true`)
exactly when no live key exists, storing the value with absolute expiry
`now + px`. -/
def redisSetNxPx (st : Option RedisEntry) (v : String) (px : Int) (now : Int) :
    Bool × Option RedisEntry :=
  match redisGet st now with
  | some _ => (false, st)
  | none => (true, some ⟨v, now + px⟩)

/-- Redis `PEXPIRE leader`: resets the absolute expiry of the stored entry
(no-op on an absent key). -/
def redisPExpire (st : Option RedisEntry) (t : Int) : Option RedisEntry :=
  match st with
  | some e => some ⟨e.value, t⟩
  | none => none

/-- Body of `tryAcquireRedisLeadership` inside its try block: a single
`SET ... NX PX LEASE_DURATION`. -/
def tryAcquireRedisRaw (st : Option RedisEntry) (nodeId : String) (now : Int)
    (f : RedisFaults) : Except Int (Bool × Option RedisEntry) :=
  match f.setErr with
  | some c => Except.error c
  | none => Except.ok (redisSetNxPx st nodeId LEASE_DURATION now)

/-- `tryAcquireRedisLeadership`: null client gives `false`; errors are
caught and collapsed to `false`. -/
def tryAcquireRedisLeadership (conn : Bool) (st : Option RedisEntry)
    (nodeId : String) (now : Int) (f : RedisFaults) : Bool × Option RedisEntry :=
  if conn then
    match tryAcquireRedisRaw st nodeId now f with
    | Except.ok res => res
    | Except.error _ => (false, st)
  else (false, st)

/-- Body of `renewRedisLease` inside its try block: the non-atomic
read-then-refresh — GET the current owner, and only when it matches,
PEXPIRE the key. -/
def renewRedisRaw (st : Option RedisEntry) (nodeId : String) (now : Int)
    (f : RedisFaults) : Except Int (Bool × Option RedisEntry) :=
  match f.getErr with
  | some c => Except.error c
  | none =>
    match redisGet st now with
    | some cur =>
      if cur = nodeId then
        match f.pexpireErr with
        | some c => Except.error c
        | none => Except.ok (true, redisPExpire st (now + LEASE_DURATION))
      else Except.ok (false, st)
    | none => Except.ok (false, st)

/-- `renewRedisLease`: null client gives `false`; errors are caught and
collapsed to `false`. -/
def renewRedisLease (conn : Bool) (st : Option RedisEntry) (nodeId : String)
    (now : Int) (f : RedisFaults) : Bool × Option RedisEntry :=
  if conn then
    match renewRedisRaw st nodeId now f with
    | Except.ok res => res
    | Except.error _ => (false, st)
  else (false, st)

/-- `releaseRedisLock`: no-op when the client is null; otherwise DEL, with
any error caught. -/
def releaseRedisLock (conn : Bool) (st : Option RedisEntry) (fault : Option Int) :
    Option RedisEntry :=
  if conn then
    match fault with
    | some _ => st
    | none => none
  else st

/-- A Mongo record currently blocks acquisition: it exists and has not yet
expired at `now`. -/
def mongoHeld (rec : Option LeaderDoc) (now : Int) : Bool :=
  match rec with
  | some r => !(decide (r.expiresAt < now))
  | none => false

/-- A live Redis key currently blocks acquisition. -/
def redisHeld (st : Option RedisEntry) (now : Int) : Bool :=
  (redisGet st now).isSome

/-- Serialized race on the Mongo backend: the listed nodes issue
`tryAcquireMongoLeadership` one after the other (the backend primitive is
atomic, so any concurrent interleaving serializes like this), all at the
same instant `now`; the result counts the successful acquisitions. -/
def raceMongo (rec : Option LeaderDoc) (now : Int) : List String → Nat
  | [] => 0
  | n :: rest =>
    let p := tryAcquireMongoLeadership true rec n now noMongoFaults
    (if p.1 then 1 else 0) + raceMongo p.2 now rest

/-- Serialized race on the Redis backend, as in `raceMongo`. -/
def raceRedis (st : Option RedisEntry) (now : Int) : List String → Nat
  | [] => 0
  | n :: rest =>
    let p := tryAcquireRedisLeadership true st n now noRedisFaults
    (if p.1 then 1 else 0) + raceRedis p.2 now rest

/-- Node status, the `status` union of the source `Node` interface. -/
inductive NStatus
  | idle
  | competing
  | leader
  | follower
  | crashed
deriving DecidableEq

/-- The backend selector (`currentDatabase` in the source). -/
inductive Db
  | mongodb
  | redis
deriving DecidableEq

/-- The pending timeout stored in `competitionTimer`: either the jittered
acquisition attempt scheduled by `startNodeCompetition` (delay drawn from
[0, 2000)), or the fixed 5000 ms retry scheduled after a lost race. -/
inductive CompTimer
  | attempt (delay : Int)
  | retry (delay : Int)
deriving DecidableEq

/-- Broadcast events of the engine, in source order of their fields. -/
inductive Event
  | electionStarted (db : Db)
  | electionReset
  | nodeCrashed (nodeId : String)
  | nodeUpdate (nodeId : String) (status : NStatus) (lease : Option Int)
  | leaderElected (nodeId : String)
  | leaderLost (nodeId : String)
deriving DecidableEq

/-- Trace of calls the engine issues against the storage backend. -/
inductive BackendCall
  | initCall (db : Db)
  | acquireCall (db : Db) (nodeId : String)
  | renewCall (db : Db) (nodeId : String)
  | releaseCall (db : Db)
deriving DecidableEq

/-- One simulated node (`Node` in the source). The timer handles are
modelled by whether a timer is pending: `heartbeatTimer` is true while the
heartbeat interval is active, `competitionTimer` holds the pending
timeout, if any. -/
structure ENode where
  id : String
  status : NStatus
  lease : Option Int
  heartbeatTimer : Bool
  competitionTimer : Option CompTimer
deriving DecidableEq

/-- The engine state: the node map (as a list in insertion order), the
selected backend, the run flag, the two connections with their server-side
record state, and the accumulated event broadcasts and backend calls. -/
structure Engine where
  nodes : List ENode
  currentDatabase : Db
  running : Bool
  mongoConn : Bool
  mongoRecord : Option LeaderDoc
  redisConn : Bool
  redisRecord : Option RedisEntry
  events : List Event
  calls : List BackendCall
deriving DecidableEq

/-- `this.nodes.get(nodeId)`. -/
def findNode (e : Engine) (nodeId : String) : Option ENode :=
  e.nodes.find? (fun n => n.id == nodeId)

/-- In-place mutation of the node with the given id. -/
def updateNode (e : Engine) (nodeId : String) (f : ENode → ENode) : Engine :=
  { e with nodes := e.nodes.map (fun n => if n.id == nodeId then f n else n) }

/-- `this.broadcast(event)`. -/
def emit (e : Engine) (ev : Event) : Engine :=
  { e with events := e.events ++ [ev] }

/-- Record one backend call in the trace. -/
def logCall (e : Engine) (c : BackendCall) : Engine :=
  { e with calls := e.calls ++ [c] }

/-- The backend dispatch of the competition attempt: `tryAcquireMongoLeadership`
or `tryAcquireRedisLeadership` depending on `currentDatabase`, fault-free. -/
def engineTryAcquire (e : Engine) (nodeId : String) (now : Int) : Bool × Engine :=
  match e.currentDatabase with
  | Db.mongodb =>
    let p := tryAcquireMongoLeadership e.mongoConn e.mongoRecord nodeId now noMongoFaults
    (p.1, logCall { e with mongoRecord := p.2 } (BackendCall.acquireCall Db.mongodb nodeId))
  | Db.redis =>
    let p := tryAcquireRedisLeadership e.redisConn e.redisRecord nodeId now noRedisFaults
    (p.1, logCall { e with redisRecord := p.2 } (BackendCall.acquireCall Db.redis nodeId))

/-- The backend dispatch of the heartbeat: `renewMongoLease` or
`renewRedisLease` depending on `currentDatabase`, fault-free. -/
def engineRenew (e : Engine) (nodeId : String) (now : Int) : Bool × Engine :=
  match e.currentDatabase with
  | Db.mongodb =>
    let p := renewMongoLease e.mongoConn e.mongoRecord nodeId now none
    (p.1, logCall { e with mongoRecord := p.2 } (BackendCall.renewCall Db.mongodb nodeId))
  | Db.redis =>
    let p := renewRedisLease e.redisConn e.redisRecord nodeId now noRedisFaults
    (p.1, logCall { e with redisRecord := p.2 } (BackendCall.renewCall Db.redis nodeId))

/-- The release dispatch used when a crashed node was the leader. -/
def releaseBackend (e : Engine) : Engine :=
  match e.currentDatabase with
  | Db.mongodb =>
    logCall { e with mongoRecord := releaseMongoLock e.mongoConn e.mongoRecord none }
      (BackendCall.releaseCall Db.mongodb)
  | Db.redis =>
    logCall { e with redisRecord := releaseRedisLock e.redisConn e.redisRecord none }
      (BackendCall.releaseCall Db.redis)

/-- `startNodeCompetition(nodeId)` up to the point where the jittered
timeout is scheduled: guard on a missing or crashed node, set the status
to competing, broadcast the update (with a literal `lease: null` payload),
and store the pending attempt with the drawn `jitter` delay. The timeout
body itself is `fireCompetitionAttempt`. Note that the node `lease` field
is not written on this path. -/
def startNodeCompetition (e : Engine) (nodeId : String) (jitter : Int) : Engine :=
  match findNode e nodeId with
  | none => e
  | some node =>
    if node.status = NStatus.crashed then e
    else
      let e1 := updateNode e nodeId (fun n => { n with status := NStatus.competing })
      let e2 := emit e1 (Event.nodeUpdate nodeId NStatus.competing none)
      updateNode e2 nodeId (fun n => { n with competitionTimer := some (CompTimer.attempt jitter) })

/-- `startHeartbeat(nodeId)`: installs the heartbeat interval. The interval
body is `heartbeatTick`. -/
def startHeartbeat (e : Engine) (nodeId : String) : Engine :=
  match findNode e nodeId with
  | none => e
  | some _ => updateNode e nodeId (fun n => { n with heartbeatTimer := true })

/-- The body of the competition timeout: bail out when the engine stopped
or the node crashed; otherwise call the backend acquire. On success become
leader with lease `now + LEASE_DURATION`, broadcast the update and the
leader-elected event, and start the heartbeat. On failure become follower
(broadcasting `lease: null`) and schedule the fixed 5000 ms retry. -/
def fireCompetitionAttempt (e : Engine) (nodeId : String) (now : Int) : Engine :=
  match findNode e nodeId with
  | none => e
  | some node =>
    if e.running = false ∨ node.status = NStatus.crashed then e
    else
      let p := engineTryAcquire e nodeId now
      if p.1 then
        let e2 := updateNode p.2 nodeId
          (fun n => { n with status := NStatus.leader, lease := some (now + LEASE_DURATION) })
        let e3 := emit e2 (Event.nodeUpdate nodeId NStatus.leader (some (now + LEASE_DURATION)))
        let e4 := emit e3 (Event.leaderElected nodeId)
        startHeartbeat e4 nodeId
      else
        let e2 := updateNode p.2 nodeId (fun n => { n with status := NStatus.follower })
        let e3 := emit e2 (Event.nodeUpdate nodeId NStatus.follower none)
        updateNode e3 nodeId (fun n => { n with competitionTimer := some (CompTimer.retry 5000) })

/-- The body of one heartbeat interval tick: when the engine stopped or
the node is no longer a leader, clear the interval and return. Otherwise
renew the lease through the backend; on success extend the in-memory lease
and broadcast it; on failure clear the interval, fall back to follower
with the lease nulled, broadcast leader-lost then the follower update, and
re-enter competition at once (with a fresh jitter draw). -/
def heartbeatTick (e : Engine) (nodeId : String) (now : Int) (jitter : Int) : Engine :=
  match findNode e nodeId with
  | none => e
  | some node =>
    if e.running = false ∨ node.status = NStatus.crashed ∨ node.status ≠ NStatus.leader then
      updateNode e nodeId (fun n => { n with heartbeatTimer := false })
    else
      let p := engineRenew e nodeId now
      if p.1 then
        let e2 := updateNode p.2 nodeId (fun n => { n with lease := some (now + LEASE_DURATION) })
        emit e2 (Event.nodeUpdate nodeId NStatus.leader (some (now + LEASE_DURATION)))
      else
        let e2 := updateNode p.2 nodeId
          (fun n => { n with status := NStatus.follower, lease := none, heartbeatTimer := false })
        let e3 := emit e2 (Event.leaderLost nodeId)
        let e4 := emit e3 (Event.nodeUpdate nodeId NStatus.follower none)
        startNodeCompetition e4 nodeId jitter

/-- `initMongo` / `initRedis`: open the connection and clear any existing
leader record (deleteMany / DEL). -/
def connectBackend (e : Engine) (db : Db) : Engine :=
  match db with
  | Db.mongodb => logCall { e with mongoConn := true, mongoRecord := none } (BackendCall.initCall Db.mongodb)
  | Db.redis => logCall { e with redisConn := true, redisRecord := none } (BackendCall.initCall Db.redis)

/-- `stopElection()`: clear the run flag, cancel every timer of every node,
and close both connections. Node statuses and leases are left as they are,
and the server-side records are not deleted. -/
def stopElection (e : Engine) : Engine :=
  let e1 : Engine := { e with
    running := false,
    nodes := e.nodes.map (fun n => { n with heartbeatTimer := false, competitionTimer := none }) }
  { e1 with mongoConn := false, redisConn := false }

/-- `startElection(database)`: stop a running election first, select the
backend, set the run flag, connect and clear the backend, broadcast
election-started, then start every non-crashed node competing. `jit`
supplies the jitter draw of each node. -/
def startElection (e : Engine) (db : Db) (jit : String → Int) : Engine :=
  let e0 := if e.running then stopElection e else e
  let e1 := { e0 with currentDatabase := db, running := true }
  let e2 := connectBackend e1 db
  let e3 := emit e2 (Event.electionStarted db)
  e3.nodes.foldl
    (fun acc n => if n.status = NStatus.crashed then acc else startNodeCompetition acc n.id (jit n.id))
    e3

/-- `resetElection()`: stop, force every node back to idle with the lease
cleared, and broadcast election-reset. -/
def resetElection (e : Engine) : Engine :=
  let e1 := stopElection e
  let e2 := { e1 with nodes := e1.nodes.map (fun n => { n with status := NStatus.idle, lease := none }) }
  emit e2 Event.electionReset

/-- `crashNode(nodeId)`: no-op on a missing or already crashed node;
otherwise cancel both timers, mark the node crashed with the lease
cleared, broadcast node-crashed, and — only when the node was the leader —
release the backend lock and broadcast leader-lost. -/
def crashNode (e : Engine) (nodeId : String) : Engine :=
  match findNode e nodeId with
  | none => e
  | some node =>
    if node.status = NStatus.crashed then e
    else
      let e1 := updateNode e nodeId
        (fun n => { n with heartbeatTimer := false, competitionTimer := none,
                           status := NStatus.crashed, lease := none })
      let e2 := emit e1 (Event.nodeCrashed nodeId)
      if node.status = NStatus.leader then
        emit (releaseBackend e2) (Event.leaderLost nodeId)
      else e2

/-- A fresh idle node as built by the constructor. -/
def mkIdle (nodeId : String) : ENode := ⟨nodeId, NStatus.idle, none, false, none⟩

/-- The engine as built by the constructor: five idle nodes, MongoDB
selected, nothing running and nothing connected. -/
def initialEngine : Engine :=
  { nodes := [mkIdle "node-1", mkIdle "node-2", mkIdle "node-3", mkIdle "node-4", mkIdle "node-5"],
    currentDatabase := Db.mongodb, running := false,
    mongoConn := false, mongoRecord := none, redisConn := false, redisRecord := none,
    events := [], calls := [] }

/-- Decidable check of the specified invariant: every node has a non-null
lease exactly when its status is leader. -/
def leaseStatusOk (e : Engine) : Bool :=
  e.nodes.all (fun n => n.lease.isSome == decide (n.status = NStatus.leader))

/-- A zero jitter draw for every node. -/
def jitterZero : String → Int := fun _ => 0

/-- Concrete run: start a MongoDB election, let node-1 win its acquisition
at time 1000, then issue startElection again while node-1 is the leader. -/
def restartScenario : Engine :=
  startElection
    (fireCompetitionAttempt (startElection initialEngine Db.mongodb jitterZero) "node-1" 1000)
    Db.mongodb jitterZero

/-- Concrete engine in which node-1 is the current leader over MongoDB. -/
def crashScenarioEngine : Engine :=
  { initialEngine with
    running := true, mongoConn := true,
    mongoRecord := some ⟨"node-1", 10000, 0⟩,
    nodes := [⟨"node-1", NStatus.leader, some 10000, true, none⟩,
      mkIdle "node-2", mkIdle "node-3", mkIdle "node-4", mkIdle "node-5"] }

/-- Concrete engine in which node-1 still believes it is the leader while
the MongoDB record is owned by node-2, so its next renewal fails. -/
def heartbeatScenarioEngine : Engine :=
  { initialEngine with
    running := true, mongoConn := true,
    mongoRecord := some ⟨"node-2", 99999, 0⟩,
    nodes := [⟨"node-1", NStatus.leader, some 10000, true, none⟩,
      mkIdle "node-2", mkIdle "node-3", mkIdle "node-4", mkIdle "node-5"] }

/-! Helper lemmas about the two backends. -/

theorem tryAcquireMongo_nofault_eq (rec : Option LeaderDoc) (n : String) (now : Int) :
    tryAcquireMongoLeadership true rec n now noMongoFaults =
      if mongoHeld rec now then (false, rec)
      else (true, some ⟨n, now + LEASE_DURATION, now⟩) := by
  cases rec with
  | none => simp [tryAcquireMongoLeadership, tryAcquireMongoRaw, insertOne, mongoHeld, noMongoFaults]
  | some r =>
    by_cases h : r.expiresAt < now <;>
      simp [tryAcquireMongoLeadership, tryAcquireMongoRaw, insertOne, mongoHeld, noMongoFaults, h]

theorem tryAcquireRedis_nofault_eq (st : Option RedisEntry) (n : String) (now : Int) :
    tryAcquireRedisLeadership true st n now noRedisFaults =
      if redisHeld st now then (false, st)
      else (true, some ⟨n, now + LEASE_DURATION⟩) := by
  cases hg : redisGet st now <;>
    simp [tryAcquireRedisLeadership, tryAcquireRedisRaw, redisSetNxPx, redisHeld, noRedisFaults, hg]

theorem mongoHeld_fresh (n : String) (now : Int) :
    mongoHeld (some ⟨n, now + LEASE_DURATION, now⟩) now = true := by
  simp [mongoHeld, LEASE_DURATION]

theorem redisHeld_fresh (n : String) (now : Int) :
    redisHeld (some ⟨n, now + LEASE_DURATION⟩) now = true := by
  simp [redisHeld, redisGet, LEASE_DURATION]

theorem raceMongo_of_held (now : Int) (ids : List String) :
    ∀ rec, mongoHeld rec now = true → raceMongo rec now ids = 0 := by
  induction ids with
  | nil => intro rec _; rfl
  | cons n rest ih =>
    intro rec h
    simp [raceMongo, tryAcquireMongo_nofault_eq, h, ih rec h]

theorem raceRedis_of_held (now : Int) (ids : List String) :
    ∀ st, redisHeld st now = true → raceRedis st now ids = 0 := by
  induction ids with
  | nil => intro st _; rfl
  | cons n rest ih =>
    intro st h
    simp [raceRedis, tryAcquireRedis_nofault_eq, h, ih st h]

/-- C1: at most one node wins the lease race. The backend primitives are
atomic, so concurrent `tryAcquire` calls serialize; for any serialized
batch of calls issued at the same instant `now` — in particular for a
batch racing against an absent or expired record — at most one call
returns true, on either backend. This is the backend form of the mutual
exclusion property: validity of a lease is arbitrated solely by the single
backend record. -/
theorem tryAcquire_race_at_most_one :
    (∀ (rec : Option LeaderDoc) (now : Int) (ids : List String), raceMongo rec now ids ≤ 1)
    ∧ (∀ (st : Option RedisEntry) (now : Int) (ids : List String), raceRedis st now ids ≤ 1) := by
  constructor
  · intro rec now ids
    induction ids generalizing rec with
    | nil => simp [raceMongo]
    | cons n rest ih =>
      by_cases h : mongoHeld rec now = true
      · simp [raceMongo, tryAcquireMongo_nofault_eq, h]
        exact ih rec
      · have h' : mongoHeld rec now = false := by simpa using h
        simp [raceMongo, tryAcquireMongo_nofault_eq, h',
          raceMongo_of_held now rest _ (mongoHeld_fresh n now)]
  · intro st now ids
    induction ids generalizing st with
    | nil => simp [raceRedis]
    | cons n rest ih =>
      by_cases h : redisHeld st now = true
      · simp [raceRedis, tryAcquireRedis_nofault_eq, h]
        exact ih st
      · have h' : redisHeld st now = false := by simpa using h
        simp [raceRedis, tryAcquireRedis_nofault_eq, h',
          raceRedis_of_held now rest _ (redisHeld_fresh n now)]

/-- C3: characterization of the MongoDB `tryAcquire`. The blocking
condition `mongoHeld` is false exactly when no record exists or the record
has `expiresAt < now`; in that case the call returns true and writes the
record owned by the caller with expiry `now + LEASE_DURATION`, otherwise
it returns false and leaves the record unchanged. The raw (uncaught)
operation never raises in a fault-free run, and in particular the
uniqueness conflict of the fallback insert (duplicate-key code 11000) is
what the failure path consists of: `insertOne` on an occupied collection
reports exactly the error 11000, which the code converts to false. -/
theorem tryAcquireMongo_characterization :
    (∀ (rec : Option LeaderDoc) (now : Int),
      mongoHeld rec now = false ↔ rec = none ∨ ∃ r, rec = some r ∧ r.expiresAt < now)
    ∧ (∀ (rec : Option LeaderDoc) (n : String) (now : Int),
      tryAcquireMongoLeadership true rec n now noMongoFaults =
        if mongoHeld rec now then (false, rec)
        else (true, some ⟨n, now + LEASE_DURATION, now⟩))
    ∧ (∀ (rec : Option LeaderDoc) (n : String) (now : Int),
      tryAcquireMongoRaw rec n now noMongoFaults =
        Except.ok (tryAcquireMongoLeadership true rec n now noMongoFaults))
    ∧ (∀ (r : LeaderDoc) (d : LeaderDoc), insertOne (some r) d none = Except.error 11000) := by
  refine ⟨?_, tryAcquireMongo_nofault_eq, ?_, fun r d => rfl⟩
  · intro rec now
    cases rec with
    | none => simp [mongoHeld]
    | some r => simp [mongoHeld]
  · intro rec n now
    cases rec with
    | none => simp [tryAcquireMongoLeadership, tryAcquireMongoRaw, insertOne, noMongoFaults]
    | some r =>
      by_cases h : r.expiresAt < now <;>
        simp [tryAcquireMongoLeadership, tryAcquireMongoRaw, insertOne, noMongoFaults, h]

/-- C4: for both backends, `renew(nodeId, now)` succeeds exactly when the
record the backend currently sees is owned by `nodeId` (for MongoDB the
stored document, for Redis the live, non-expired key); success rewrites
the expiry to `now + LEASE_DURATION` keeping the owner, failure leaves the
record untouched. In particular (renewal fencing) after a successful
`tryAcquire` by node `x`, a `renew` by any other node `y` returns false
and leaves the record unchanged, on both backends. -/
theorem renew_owner_iff_and_fencing :
    (∀ (rec : Option LeaderDoc) (n : String) (now : Int),
      (renewMongoLease true rec n now none).1 = true ↔ ∃ r, rec = some r ∧ r.nodeId = n)
    ∧ (∀ (r : LeaderDoc) (n : String) (now : Int), r.nodeId = n →
      renewMongoLease true (some r) n now none = (true, some ⟨n, now + LEASE_DURATION, now⟩))
    ∧ (∀ (rec : Option LeaderDoc) (n : String) (now : Int),
      (renewMongoLease true rec n now none).1 = false →
      (renewMongoLease true rec n now none).2 = rec)
    ∧ (∀ (st : Option RedisEntry) (n : String) (now : Int),
      (renewRedisLease true st n now noRedisFaults).1 = true ↔ redisGet st now = some n)
    ∧ (∀ (e : RedisEntry) (n : String) (now : Int), redisGet (some e) now = some n →
      renewRedisLease true (some e) n now noRedisFaults = (true, some ⟨n, now + LEASE_DURATION⟩))
    ∧ (∀ (st : Option RedisEntry) (n : String) (now : Int),
      (renewRedisLease true st n now noRedisFaults).1 = false →
      (renewRedisLease true st n now noRedisFaults).2 = st)
    ∧ (∀ (rec rec2 : Option LeaderDoc) (x y : String) (now nowR : Int), x ≠ y →
      tryAcquireMongoLeadership true rec x now noMongoFaults = (true, rec2) →
      renewMongoLease true rec2 y nowR none = (false, rec2))
    ∧ (∀ (st st2 : Option RedisEntry) (x y : String) (now nowR : Int), x ≠ y →
      tryAcquireRedisLeadership true st x now noRedisFaults = (true, st2) →
      renewRedisLease true st2 y nowR noRedisFaults = (false, st2)) := by
  have hmiff : ∀ (rec : Option LeaderDoc) (n : String) (now : Int),
      (renewMongoLease true rec n now none).1 = true ↔ ∃ r, rec = some r ∧ r.nodeId = n := by
    intro rec n now
    cases rec with
    | none => simp [renewMongoLease, renewMongoRaw]
    | some r =>
      by_cases h : r.nodeId = n <;> simp [renewMongoLease, renewMongoRaw, h]
  have hmsucc : ∀ (r : LeaderDoc) (n : String) (now : Int), r.nodeId = n →
      renewMongoLease true (some r) n now none = (true, some ⟨n, now + LEASE_DURATION, now⟩) := by
    intro r n now h
    simp [renewMongoLease, renewMongoRaw, h]
  have hmfail : ∀ (rec : Option LeaderDoc) (n : String) (now : Int),
      (renewMongoLease true rec n now none).1 = false →
      (renewMongoLease true rec n now none).2 = rec := by
    intro rec n now h
    cases rec with
    | none => rfl
    | some r =>
      by_cases hn : r.nodeId = n
      · rw [(hmsucc r n now hn)] at h ⊢
        cases h
      · simp [renewMongoLease, renewMongoRaw, hn]
  have hriff : ∀ (st : Option RedisEntry) (n : String) (now : Int),
      (renewRedisLease true st n now noRedisFaults).1 = true ↔ redisGet st now = some n := by
    intro st n now
    cases hg : redisGet st now with
    | none => simp [renewRedisLease, renewRedisRaw, noRedisFaults, hg]
    | some cur =>
      by_cases h : cur = n <;> simp [renewRedisLease, renewRedisRaw, noRedisFaults, hg, h]
  have hrsucc : ∀ (e : RedisEntry) (n : String) (now : Int), redisGet (some e) now = some n →
      renewRedisLease true (some e) n now noRedisFaults = (true, some ⟨n, now + LEASE_DURATION⟩) := by
    intro e n now hg
    have hv : e.value = n := by
      by_cases hlt : now < e.expiresAt
      · simpa [redisGet, hlt] using hg
      · simp [redisGet, hlt] at hg
    simp [renewRedisLease, renewRedisRaw, noRedisFaults, hg, redisPExpire, hv]
  have hrfail : ∀ (st : Option RedisEntry) (n : String) (now : Int),
      (renewRedisLease true st n now noRedisFaults).1 = false →
      (renewRedisLease true st n now noRedisFaults).2 = st := by
    intro st n now h
    cases hg : redisGet st now with
    | none => simp [renewRedisLease, renewRedisRaw, noRedisFaults, hg]
    | some cur =>
      by_cases hc : cur = n
      · subst hc
        cases st with
        | none => simp [redisGet] at hg
        | some e =>
          rw [hrsucc e cur now hg] at h
          cases h
      · simp [renewRedisLease, renewRedisRaw, noRedisFaults, hg, hc]
  refine ⟨hmiff, hmsucc, hmfail, hriff, hrsucc, hrfail, ?_, ?_⟩
  · intro rec rec2 x y now nowR hxy hacq
    rw [tryAcquireMongo_nofault_eq] at hacq
    by_cases h : mongoHeld rec now
    · simp [h] at hacq
    · simp [h] at hacq
      have h2 : rec2 = some ⟨x, now + LEASE_DURATION, now⟩ := hacq.symm
      subst h2
      simp [renewMongoLease, renewMongoRaw, hxy]
  · intro st st2 x y now nowR hxy hacq
    rw [tryAcquireRedis_nofault_eq] at hacq
    by_cases h : redisHeld st now
    · simp [h] at hacq
    · simp [h] at hacq
      have h2 : st2 = some ⟨x, now + LEASE_DURATION⟩ := hacq.symm
      subst h2
      by_cases hlt : nowR < now + LEASE_DURATION <;>
        simp [renewRedisLease, renewRedisRaw, noRedisFaults, redisGet, hlt, hxy]

/-- Closed instance of C4: a matching owner renews successfully on both
backends, and after node-1 acquires the absent record, a renew by node-2
fails without mutating it, on both backends. -/
theorem renew_owner_iff_and_fencing_witness :
    renewMongoLease true (some ⟨"node-1", 500, 0⟩) "node-1" 600 none
      = (true, some ⟨"node-1", 10600, 600⟩)
    ∧ renewRedisLease true (some ⟨"node-1", 900⟩) "node-1" 600 noRedisFaults
      = (true, some ⟨"node-1", 10600⟩)
    ∧ renewMongoLease true (some ⟨"node-1", 10000, 0⟩) "node-2" 600 none
      = (false, some ⟨"node-1", 10000, 0⟩)
    ∧ renewRedisLease true (some ⟨"node-1", 10000⟩) "node-2" 600 noRedisFaults
      = (false, some ⟨"node-1", 10000⟩) := by
  refine ⟨?_, ?_, ?_, ?_⟩
  · exact renew_owner_iff_and_fencing.2.1 ⟨"node-1", 500, 0⟩ "node-1" 600 rfl
  · exact renew_owner_iff_and_fencing.2.2.2.2.1 ⟨"node-1", 900⟩ "node-1" 600 (by decide)
  · exact renew_owner_iff_and_fencing.2.2.2.2.2.2.1 none (some ⟨"node-1", 10000, 0⟩)
      "node-1" "node-2" 0 600 (by decide) (by decide)
  · exact renew_owner_iff_and_fencing.2.2.2.2.2.2.2 none (some ⟨"node-1", 10000⟩)
      "node-1" "node-2" 0 600 (by decide) (by decide)

/-- C7: any error escaping the raw body of an acquire or renew operation is
caught at the call site and collapsed into the return value false with the
record left as it was; no error propagates to the engine, which therefore
cannot distinguish a backend failure from a legitimate race loss. -/
theorem backend_error_collapsed_to_false :
    (∀ (rec : Option LeaderDoc) (n : String) (now : Int) (f : MongoFaults) (c : Int),
      tryAcquireMongoRaw rec n now f = Except.error c →
      tryAcquireMongoLeadership true rec n now f = (false, rec))
    ∧ (∀ (rec : Option LeaderDoc) (n : String) (now : Int) (fault : Option Int) (c : Int),
      renewMongoRaw rec n now fault = Except.error c →
      renewMongoLease true rec n now fault = (false, rec))
    ∧ (∀ (st : Option RedisEntry) (n : String) (now : Int) (f : RedisFaults) (c : Int),
      tryAcquireRedisRaw st n now f = Except.error c →
      tryAcquireRedisLeadership true st n now f = (false, st))
    ∧ (∀ (st : Option RedisEntry) (n : String) (now : Int) (f : RedisFaults) (c : Int),
      renewRedisRaw st n now f = Except.error c →
      renewRedisLease true st n now f = (false, st)) := by
  refine ⟨?_, ?_, ?_, ?_⟩
  · intro rec n now f c h
    simp [tryAcquireMongoLeadership, h]
  · intro rec n now fault c h
    simp [renewMongoLease, h]
  · intro st n now f c h
    simp [tryAcquireRedisLeadership, h]
  · intro st n now f c h
    simp [renewRedisLease, h]

/-- Closed instance of C7: a transport error (code 42) injected into each
of the four raw operations yields the return value false with the record
unchanged. -/
theorem backend_error_collapsed_to_false_witness :
    tryAcquireMongoLeadership true none "node-1" 0 ⟨some 42, none⟩ = (false, none)
    ∧ renewMongoLease true none "node-1" 0 (some 42) = (false, none)
    ∧ tryAcquireRedisLeadership true none "node-1" 0 ⟨some 42, none, none⟩ = (false, none)
    ∧ renewRedisLease true none "node-1" 0 ⟨none, some 42, none⟩ = (false, none) :=
  ⟨backend_error_collapsed_to_false.1 none "node-1" 0 ⟨some 42, none⟩ 42 rfl,
   backend_error_collapsed_to_false.2.1 none "node-1" 0 (some 42) 42 rfl,
   backend_error_collapsed_to_false.2.2.1 none "node-1" 0 ⟨some 42, none, none⟩ 42 rfl,
   backend_error_collapsed_to_false.2.2.2 none "node-1" 0 ⟨none, some 42, none⟩ 42 rfl⟩

/-- C9: with no backend connection (null MongoDB collection handle, null
Redis client), every acquire and renew call returns false without touching
any state, under every fault environment, and both release operations
return without any action. No exception reaches the engine from this
state. -/
theorem no_connection_returns_false :
    (∀ (rec : Option LeaderDoc) (n : String) (now : Int) (f : MongoFaults),
      tryAcquireMongoLeadership false rec n now f = (false, rec))
    ∧ (∀ (rec : Option LeaderDoc) (n : String) (now : Int) (fault : Option Int),
      renewMongoLease false rec n now fault = (false, rec))
    ∧ (∀ (st : Option RedisEntry) (n : String) (now : Int) (f : RedisFaults),
      tryAcquireRedisLeadership false st n now f = (false, st))
    ∧ (∀ (st : Option RedisEntry) (n : String) (now : Int) (f : RedisFaults),
      renewRedisLease false st n now f = (false, st))
    ∧ (∀ (rec : Option LeaderDoc) (fault : Option Int), releaseMongoLock false rec fault = rec)
    ∧ (∀ (st : Option RedisEntry) (fault : Option Int), releaseRedisLock false st fault = st) :=
  ⟨fun _ _ _ _ => rfl, fun _ _ _ _ => rfl, fun _ _ _ _ => rfl, fun _ _ _ _ => rfl,
   fun _ _ => rfl, fun _ _ => rfl⟩

/-! Helper lemmas about the engine state machine. -/

theorem find_map_update (l : List ENode) (nodeId : String) (f : ENode → ENode)
    (hf : ∀ n, (f n).id = n.id) :
    (l.map (fun n => if n.id == nodeId then f n else n)).find? (fun n => n.id == nodeId)
      = (l.find? (fun n => n.id == nodeId)).map f := by
  induction l with
  | nil => rfl
  | cons h t ih =>
    cases hb : (h.id == nodeId) with
    | true =>
      have hfb : ((f h).id == nodeId) = true := by rw [hf]; exact hb
      rw [List.map_cons, if_pos hb, List.find?_cons, List.find?_cons, hb, hfb]
      rfl
    | false =>
      have helt : (if (h.id == nodeId) = true then f h else h) = h := by
        rw [if_neg]
        simp [hb]
      rw [List.map_cons, helt, List.find?_cons, List.find?_cons, hb]
      exact ih

theorem findNode_updateNode (e : Engine) (nodeId : String) (f : ENode → ENode)
    (hf : ∀ n, (f n).id = n.id) :
    findNode (updateNode e nodeId f) nodeId = (findNode e nodeId).map f :=
  find_map_update e.nodes nodeId f hf

theorem findNode_emit (e : Engine) (ev : Event) (nodeId : String) :
    findNode (emit e ev) nodeId = findNode e nodeId := rfl

theorem findNode_releaseBackend (e : Engine) (nodeId : String) :
    findNode (releaseBackend e) nodeId = findNode e nodeId := by
  unfold releaseBackend findNode logCall
  cases e.currentDatabase <;> rfl

theorem releaseBackend_events (e : Engine) : (releaseBackend e).events = e.events := by
  unfold releaseBackend logCall
  cases e.currentDatabase <;> rfl

theorem releaseBackend_calls (e : Engine) :
    (releaseBackend e).calls = e.calls ++ [BackendCall.releaseCall e.currentDatabase] := by
  cases hdb : e.currentDatabase <;> simp [releaseBackend, logCall, hdb]

theorem engineRenew_nodes (e : Engine) (nodeId : String) (now : Int) :
    ((engineRenew e nodeId now).2).nodes = e.nodes := by
  unfold engineRenew logCall
  cases e.currentDatabase <;> rfl

theorem engineRenew_events (e : Engine) (nodeId : String) (now : Int) :
    ((engineRenew e nodeId now).2).events = e.events := by
  unfold engineRenew logCall
  cases e.currentDatabase <;> rfl

theorem engineRenew_calls (e : Engine) (nodeId : String) (now : Int) :
    ((engineRenew e nodeId now).2).calls = e.calls ++ [BackendCall.renewCall e.currentDatabase nodeId] := by
  cases hdb : e.currentDatabase <;> simp [engineRenew, logCall, hdb]

theorem engineTryAcquire_nodes (e : Engine) (nodeId : String) (now : Int) :
    ((engineTryAcquire e nodeId now).2).nodes = e.nodes := by
  unfold engineTryAcquire logCall
  cases e.currentDatabase <;> rfl

theorem engineTryAcquire_events (e : Engine) (nodeId : String) (now : Int) :
    ((engineTryAcquire e nodeId now).2).events = e.events := by
  unfold engineTryAcquire logCall
  cases e.currentDatabase <;> rfl

theorem engineTryAcquire_calls (e : Engine) (nodeId : String) (now : Int) :
    ((engineTryAcquire e nodeId now).2).calls
      = e.calls ++ [BackendCall.acquireCall e.currentDatabase nodeId] := by
  cases hdb : e.currentDatabase <;> simp [engineTryAcquire, logCall, hdb]

theorem crashNode_of_none (e : Engine) (nodeId : String)
    (hf : findNode e nodeId = none) : crashNode e nodeId = e := by
  simp only [crashNode, hf]

theorem crashNode_of_crashed (e : Engine) (nodeId : String) (n : ENode)
    (hf : findNode e nodeId = some n) (hcr : n.status = NStatus.crashed) :
    crashNode e nodeId = e := by
  simp only [crashNode, hf]
  simp [hcr]

theorem crashNode_findNode (e : Engine) (nodeId : String) (node : ENode)
    (hfind : findNode e nodeId = some node) (hnc : node.status ≠ NStatus.crashed) :
    findNode (crashNode e nodeId) nodeId
      = some { node with status := NStatus.crashed, lease := none,
                         heartbeatTimer := false, competitionTimer := none } := by
  simp only [crashNode, hfind]
  rw [if_neg hnc]
  by_cases hl : node.status = NStatus.leader
  · rw [if_pos hl, findNode_emit, findNode_releaseBackend, findNode_emit,
      findNode_updateNode e nodeId
        (fun n => { n with heartbeatTimer := false, competitionTimer := none,
                           status := NStatus.crashed, lease := none })
        (fun n => rfl), hfind]
    rfl
  · rw [if_neg hl, findNode_emit,
      findNode_updateNode e nodeId
        (fun n => { n with heartbeatTimer := false, competitionTimer := none,
                           status := NStatus.crashed, lease := none })
        (fun n => rfl), hfind]
    rfl

theorem crashNode_events (e : Engine) (nodeId : String) (node : ENode)
    (hfind : findNode e nodeId = some node) (hnc : node.status ≠ NStatus.crashed) :
    (crashNode e nodeId).events
      = e.events ++ [Event.nodeCrashed nodeId]
          ++ (if node.status = NStatus.leader then [Event.leaderLost nodeId] else []) := by
  simp only [crashNode, hfind]
  rw [if_neg hnc]
  by_cases hl : node.status = NStatus.leader
  · simp [hl, emit, releaseBackend_events, updateNode]
  · simp [hl, emit, updateNode]

theorem crashNode_calls (e : Engine) (nodeId : String) (node : ENode)
    (hfind : findNode e nodeId = some node) (hnc : node.status ≠ NStatus.crashed) :
    (crashNode e nodeId).calls
      = e.calls ++ (if node.status = NStatus.leader
          then [BackendCall.releaseCall e.currentDatabase] else []) := by
  simp only [crashNode, hfind]
  rw [if_neg hnc]
  by_cases hl : node.status = NStatus.leader
  · simp [hl, emit, updateNode, releaseBackend_calls]
  · simp [hl, emit, updateNode]

/-- C5: on an existing, non-crashed node, `crashNode` cancels both timers,
marks the node crashed with its lease cleared, emits node-crashed, and —
exactly when the node was the leader — issues one release call to the
active backend and emits leader-lost after the node-crashed event (the
event list shows the order). -/
theorem crashNode_spec (e : Engine) (nodeId : String) (node : ENode)
    (hfind : findNode e nodeId = some node) (hnc : node.status ≠ NStatus.crashed) :
    findNode (crashNode e nodeId) nodeId
      = some { node with status := NStatus.crashed, lease := none,
                         heartbeatTimer := false, competitionTimer := none }
    ∧ (crashNode e nodeId).events
      = e.events ++ [Event.nodeCrashed nodeId]
          ++ (if node.status = NStatus.leader then [Event.leaderLost nodeId] else [])
    ∧ (crashNode e nodeId).calls
      = e.calls ++ (if node.status = NStatus.leader
          then [BackendCall.releaseCall e.currentDatabase] else []) :=
  ⟨crashNode_findNode e nodeId node hfind hnc,
   crashNode_events e nodeId node hfind hnc,
   crashNode_calls e nodeId node hfind hnc⟩

/-- Closed instance of C5: crashing the current leader node-1 marks it
crashed, emits node-crashed followed by leader-lost, and issues exactly
one release call against MongoDB. -/
theorem crashNode_spec_witness :
    findNode (crashNode crashScenarioEngine "node-1") "node-1"
      = some ⟨"node-1", NStatus.crashed, none, false, none⟩
    ∧ (crashNode crashScenarioEngine "node-1").events
      = [Event.nodeCrashed "node-1", Event.leaderLost "node-1"]
    ∧ (crashNode crashScenarioEngine "node-1").calls
      = [BackendCall.releaseCall Db.mongodb] := by
  have h := crashNode_spec crashScenarioEngine "node-1"
    ⟨"node-1", NStatus.leader, some 10000, true, none⟩ rfl (by decide)
  exact ⟨h.1, h.2.1.trans rfl, h.2.2.trans rfl⟩

/-- C10: `crashNode` is a no-op (identical engine state: no node change,
no timer change, no backend call, no event) when the id is absent from the
registry or the node is already crashed, and consequently crashing the
same id twice equals crashing it once. -/
theorem crashNode_noop_and_idempotent :
    ∀ (e : Engine) (nodeId : String),
      ((findNode e nodeId = none ∨ ∃ n, findNode e nodeId = some n ∧ n.status = NStatus.crashed) →
        crashNode e nodeId = e)
      ∧ crashNode (crashNode e nodeId) nodeId = crashNode e nodeId := by
  intro e nodeId
  constructor
  · intro h
    rcases h with h | ⟨n, hf, hcr⟩
    · exact crashNode_of_none e nodeId h
    · exact crashNode_of_crashed e nodeId n hf hcr
  · cases hf : findNode e nodeId with
    | none =>
      have h1 : crashNode e nodeId = e := crashNode_of_none e nodeId hf
      rw [h1, h1]
    | some n =>
      by_cases hcr : n.status = NStatus.crashed
      · have h1 : crashNode e nodeId = e := crashNode_of_crashed e nodeId n hf hcr
        rw [h1, h1]
      · exact crashNode_of_crashed (crashNode e nodeId) nodeId _
          (crashNode_findNode e nodeId n hf hcr) rfl

/-- Closed instance of C10: crashing an unknown id leaves the engine
unchanged, and a second crash of the same id changes nothing further. -/
theorem crashNode_noop_witness :
    crashNode initialEngine "node-9" = initialEngine
    ∧ crashNode (crashNode initialEngine "node-9") "node-9"
        = crashNode initialEngine "node-9" :=
  ⟨(crashNode_noop_and_idempotent initialEngine "node-9").1 (Or.inl (by decide)),
   (crashNode_noop_and_idempotent initialEngine "node-9").2⟩

theorem resetNodes_idem (l : List ENode) :
    ((((l.map (fun n => { n with heartbeatTimer := false, competitionTimer := none })).map
        (fun n => { n with status := NStatus.idle, lease := none })).map
        (fun n => { n with heartbeatTimer := false, competitionTimer := none })).map
        (fun n => { n with status := NStatus.idle, lease := none }))
      = (l.map (fun n => { n with heartbeatTimer := false, competitionTimer := none })).map
        (fun n => { n with status := NStatus.idle, lease := none }) := by
  induction l with
  | nil => rfl
  | cons n t ih => simp [ih]

/-- C8 counterexample: with no election running, the first `resetElection`
emits one election-reset event, and the second call emits another one —
the run does not stay at a single election-reset event. -/
theorem resetElection_twice_emits_second_reset :
    (resetElection initialEngine).events = [Event.electionReset]
    ∧ (resetElection (resetElection initialEngine)).events
        = [Event.electionReset, Event.electionReset] :=
  ⟨rfl, rfl⟩

/-- C8 amended: `resetElection` is idempotent on every state component
(nodes, run flag, backend selection, connections, records, call trace),
but not on events: each call unconditionally broadcasts election-reset, so
the second call adds exactly one more election-reset event and nothing
else. -/
theorem resetElection_state_idempotent (e : Engine) :
    (resetElection (resetElection e)).nodes = (resetElection e).nodes
    ∧ (resetElection (resetElection e)).running = (resetElection e).running
    ∧ (resetElection (resetElection e)).currentDatabase = (resetElection e).currentDatabase
    ∧ (resetElection (resetElection e)).mongoConn = (resetElection e).mongoConn
    ∧ (resetElection (resetElection e)).mongoRecord = (resetElection e).mongoRecord
    ∧ (resetElection (resetElection e)).redisConn = (resetElection e).redisConn
    ∧ (resetElection (resetElection e)).redisRecord = (resetElection e).redisRecord
    ∧ (resetElection (resetElection e)).calls = (resetElection e).calls
    ∧ (resetElection (resetElection e)).events
        = (resetElection e).events ++ [Event.electionReset] :=
  ⟨resetNodes_idem e.nodes, rfl, rfl, rfl, rfl, rfl, rfl, rfl, rfl⟩

/-- C6: when the heartbeat renewal of a leader node fails, the tick cancels the
heartbeat interval, moves the node through follower (lease cleared,
emitting leader-lost and then the follower status update) and synchronously
re-enters competition: the node ends the very same tick in status
competing with a fresh jittered attempt timer — not the 5000 ms retry
timer. The second part shows the 5000 ms backoff belongs only to the
lost-acquisition path of the competition attempt. -/
theorem heartbeat_failure_immediate_recompete :
    (∀ (e : Engine) (nodeId : String) (node : ENode) (now jitter : Int),
      findNode e nodeId = some node → node.status = NStatus.leader → e.running = true →
      (engineRenew e nodeId now).1 = false →
      findNode (heartbeatTick e nodeId now jitter) nodeId
        = some { node with status := NStatus.competing, lease := none,
                           heartbeatTimer := false,
                           competitionTimer := some (CompTimer.attempt jitter) }
      ∧ (heartbeatTick e nodeId now jitter).events
        = e.events ++ [Event.leaderLost nodeId, Event.nodeUpdate nodeId NStatus.follower none,
            Event.nodeUpdate nodeId NStatus.competing none]
      ∧ (heartbeatTick e nodeId now jitter).calls
        = e.calls ++ [BackendCall.renewCall e.currentDatabase nodeId])
    ∧ (∀ (e : Engine) (nodeId : String) (node : ENode) (now : Int),
      findNode e nodeId = some node → node.status ≠ NStatus.crashed → e.running = true →
      (engineTryAcquire e nodeId now).1 = false →
      findNode (fireCompetitionAttempt e nodeId now) nodeId
        = some { node with status := NStatus.follower,
                           competitionTimer := some (CompTimer.retry 5000) }) := by
  constructor
  · intro e nodeId node now jitter hfind hst hrun hren
    have hguard : ¬(e.running = false ∨ node.status = NStatus.crashed
        ∨ node.status ≠ NStatus.leader) := by
      simp [hrun, hst]
    cases hp : engineRenew e nodeId now with
    | mk b e1 =>
      have hb : b = false := by rw [hp] at hren; exact hren
      subst hb
      have h2 : (engineRenew e nodeId now).2 = e1 := congrArg Prod.snd hp
      have hnodes : e1.nodes = e.nodes := by rw [← h2, engineRenew_nodes]
      have hevents : e1.events = e.events := by rw [← h2, engineRenew_events]
      have hcalls : e1.calls = e.calls ++ [BackendCall.renewCall e.currentDatabase nodeId] := by
        rw [← h2, engineRenew_calls]
      have hfind1 : findNode e1 nodeId = some node := by
        unfold findNode
        rw [hnodes]
        exact hfind
      simp only [heartbeatTick, hfind]
      rw [if_neg hguard, hp]
      simp only [Bool.false_eq_true, if_false]
      have hfind4 : findNode
          (emit (emit (updateNode e1 nodeId
              (fun n => { n with status := NStatus.follower, lease := none,
                                 heartbeatTimer := false }))
            (Event.leaderLost nodeId)) (Event.nodeUpdate nodeId NStatus.follower none)) nodeId
          = some { node with status := NStatus.follower, lease := none,
                             heartbeatTimer := false } := by
        rw [findNode_emit, findNode_emit,
          findNode_updateNode e1 nodeId
            (fun n => { n with status := NStatus.follower, lease := none,
                               heartbeatTimer := false })
            (fun n => rfl), hfind1]
        rfl
      simp only [startNodeCompetition, hfind4]
      rw [if_neg (by simp)]
      refine ⟨?_, ?_, ?_⟩
      · rw [findNode_updateNode _ nodeId
            (fun n => { n with competitionTimer := some (CompTimer.attempt jitter) })
            (fun n => rfl), findNode_emit,
          findNode_updateNode _ nodeId
            (fun n => { n with status := NStatus.competing })
            (fun n => rfl), hfind4]
        rfl
      · simp [updateNode, emit, hevents]
      · simp [updateNode, emit, hcalls]
  · intro e nodeId node now hfind hnc hrun hacq
    have hguard : ¬(e.running = false ∨ node.status = NStatus.crashed) := by
      simp [hrun, hnc]
    cases hp : engineTryAcquire e nodeId now with
    | mk b e1 =>
      have hb : b = false := by rw [hp] at hacq; exact hacq
      subst hb
      have h2 : (engineTryAcquire e nodeId now).2 = e1 := congrArg Prod.snd hp
      have hnodes : e1.nodes = e.nodes := by rw [← h2, engineTryAcquire_nodes]
      have hfind1 : findNode e1 nodeId = some node := by
        unfold findNode
        rw [hnodes]
        exact hfind
      simp only [fireCompetitionAttempt, hfind]
      rw [if_neg hguard, hp]
      simp only [Bool.false_eq_true, if_false]
      rw [findNode_updateNode _ nodeId
          (fun n => { n with competitionTimer := some (CompTimer.retry 5000) })
          (fun n => rfl), findNode_emit,
        findNode_updateNode e1 nodeId
          (fun n => { n with status := NStatus.follower })
          (fun n => rfl), hfind1]
      rfl

/-- Closed instance of C6: node-1, leader while the MongoDB record is
owned by node-2, fails its renewal at time 12000 and ends the tick in
status competing with the fresh jitter timer (777), having emitted
leader-lost, the follower update and the competing update; and a node
that loses an acquisition race gets the 5000 ms retry timer. -/
theorem heartbeat_failure_immediate_recompete_witness :
    findNode (heartbeatTick heartbeatScenarioEngine "node-1" 12000 777) "node-1"
      = some ⟨"node-1", NStatus.competing, none, false, some (CompTimer.attempt 777)⟩
    ∧ (heartbeatTick heartbeatScenarioEngine "node-1" 12000 777).events
      = [Event.leaderLost "node-1", Event.nodeUpdate "node-1" NStatus.follower none,
          Event.nodeUpdate "node-1" NStatus.competing none]
    ∧ (heartbeatTick heartbeatScenarioEngine "node-1" 12000 777).calls
      = [BackendCall.renewCall Db.mongodb "node-1"]
    ∧ findNode (fireCompetitionAttempt heartbeatScenarioEngine "node-2" 500) "node-2"
      = some ⟨"node-2", NStatus.follower, none, false, some (CompTimer.retry 5000)⟩ := by
  have h := heartbeat_failure_immediate_recompete.1 heartbeatScenarioEngine "node-1"
    ⟨"node-1", NStatus.leader, some 10000, true, none⟩ 12000 777 rfl rfl rfl (by decide)
  have h2 := heartbeat_failure_immediate_recompete.2 heartbeatScenarioEngine "node-2"
    (mkIdle "node-2") 500 (by decide) (by decide) rfl (by decide)
  exact ⟨h.1, h.2.1.trans rfl, h.2.2.trans rfl, h2⟩

/-- C2 refutation at a concrete run: after a MongoDB election in which
node-1 acquired the lease, a second `startElection` drives node-1 through
`startNodeCompetition`, which sets its status to competing but never
clears its `lease` field: node-1 ends with status competing and the stale
lease 11000, so the lease/status equivalence fails (while the broadcast on
that very transition carried a `lease: null` payload). -/
theorem restart_breaks_lease_status_invariant :
    leaseStatusOk restartScenario = false
    ∧ (findNode restartScenario "node-1").map (fun n => (n.status, n.lease))
        = some (NStatus.competing, some 11000) := by
  exact ⟨by decide, by decide⟩

end LeaderElection
